import Mathlib

/-!
Verification development for the Helia CID calculator (`src/App.tsx`).

The orchestrating React callback `calculateCIDs` is embedded as a pure
state-transition function.  The hashing backend (`fs.addBytes` / `fs.addAll`,
provided by the `helia` / `@helia/unixfs` dependency, which is not part of
this repository's sources) is kept abstract as a record of fallible
operations; a concrete instance `specFs` is modelled from the spec's
description of the content-addressing pipeline (chunker, balanced DAG
builder, directory assembler).  CIDs are represented by the canonical node
content they identify: the spec stipulates the hash is injective on node
content ("identical content ⇒ identical CID" and collision resistance), so
node content is a faithful stand-in for the digest.
-/

namespace CidCalc

/-- Addressable node of the content-addressing pipeline (spec §3): a raw
leaf (chunk bytes), a file link node with anonymous children, or a
directory node with name-sorted children.  A `Cid` is identified with the
node content it addresses (injective-hash abstraction). -/
inductive Node where
  | leaf (bytes : List Nat)
  | fileNode (children : List Node)
  | dirNode (children : List (String × Node))

/-- CID abstraction: the canonical content the CID is derived from. -/
abbrev Cid := Node

/-- An input entry as handed to the importer: `path` + byte `content`
(bytes as naturals < 256; byte values never matter structurally). -/
structure Entry where
  path : String
  content : List Nat
deriving DecidableEq, Repr

/-- A selected browser `File`: `webkitRelativePath` is empty for plain file
selection and holds the relative path for folder selection. -/
structure InputFile where
  name : String
  webkitRelativePath : String
  content : List Nat
deriving DecidableEq, Repr

/-- From `App.tsx` line 75: `path: file.webkitRelativePath || file.name`
(JS `||` takes `name` exactly when `webkitRelativePath` is empty). -/
def toEntry (f : InputFile) : Entry :=
  { path := if f.webkitRelativePath = "" then f.name else f.webkitRelativePath,
    content := f.content }

/-- Character containment in a string, as evaluable list containment over
the string's characters (`path.includes("/")` in the source; same
semantics as `String.contains`, which Lean marks irreducible). -/
def hasSlash (p : String) : Bool := p.data.contains '/'

/-- Nested chunker options (`App.tsx` lines 91-93). -/
structure ChunkerOptions where
  maxChunkSize : Nat
deriving DecidableEq, Repr

/-- Importer options (`App.tsx` lines 87-98). -/
structure ImportOptions where
  cidVersion : Nat
  rawLeaves : Bool
  trickle : Bool
  chunkerOptions : ChunkerOptions
  wrapWithDirectory : Bool
deriving DecidableEq, Repr

/-- The `kuboCompatibleOptions` object of `App.tsx` lines 87-98, built from
the converted file entries. -/
def kuboCompatibleOptions (fileEntries : List Entry) : ImportOptions :=
  { cidVersion := 1
    rawLeaves := true
    trickle := false
    chunkerOptions := { maxChunkSize := 262144 }
    wrapWithDirectory :=
      decide (fileEntries.length > 1) || fileEntries.any (fun f => hasSlash f.path) }

/-- A raw entry yielded by the backend's `addAll` iterator: the `type`
field is optional (the code reads `entry.type || "file"`). -/
structure RawEntry where
  path : String
  cid : Cid
  size : Nat
  type : Option String

/-- A published result record (`importResults` elements). -/
structure Result where
  path : String
  cid : Cid
  size : Nat
  type : String

/-- Conversion done in the `addAll` loop (`App.tsx` lines 119-124):
`type: entry.type || "file"`. -/
def toResult (r : RawEntry) : Result :=
  { path := r.path, cid := r.cid, size := r.size, type := r.type.getD "file" }

/-- Abstract hashing backend: the `{ helia, fs }` pair's `fs`.  Both
operations may fail (modelling a thrown exception as `Except.error`). -/
structure Fs where
  addBytes : List Nat → ImportOptions → Except String Cid
  addAll : List Entry → ImportOptions → Except String (List RawEntry)

/-- The component state manipulated by `calculateCIDs`:
`results`, `isProcessing`, `error`. -/
structure AppState where
  results : List Result
  isProcessing : Bool
  error : String

/-- Outcome of one `calculateCIDs` invocation: the final component state,
plus whether the backend (`fs.addBytes` or `fs.addAll`) was invoked. -/
structure RunOutcome where
  state : AppState
  invokedBackend : Bool

/-- Error message of `App.tsx` line 50. -/
def selectFilesMsg : String := "Please select files first"

/-- Error message of `App.tsx` lines 61-63. -/
def heliaInitMsg : String :=
  "Helia is still initializing. Please wait a moment and try again."

/-- Error message of `App.tsx` line 132 (template `Error calculating CIDs: ${err}`). -/
def calcErrorMsg (e : String) : String := "Error calculating CIDs: " ++ e

/-- Branch condition of `App.tsx` line 102:
`fileEntries.length === 1 && !fileEntries[0].path.includes("/")`. -/
def isSingleTopLevel (es : List Entry) : Bool :=
  es.length == 1 && !(hasSlash (es.headD ⟨"", []⟩).path)

/-- Single-file branch (`App.tsx` lines 103-112): `fs.addBytes`, one record
of type `"file"` whose size is the content's byte length.  The `finally`
clause resets `isProcessing`; a thrown error is caught with `results`
still empty (they were cleared before the `try`). -/
def runSingle (fs : Fs) (entry : Entry) (opts : ImportOptions) : RunOutcome :=
  match fs.addBytes entry.content opts with
  | .ok cid =>
      { state := { results := [⟨entry.path, cid, entry.content.length, "file"⟩],
                   isProcessing := false, error := "" },
        invokedBackend := true }
  | .error e =>
      { state := { results := [], isProcessing := false, error := calcErrorMsg e },
        invokedBackend := true }

/-- Multi-entry branch (`App.tsx` lines 113-127): `fs.addAll`, one record
per yielded entry via `toResult`.  On a thrown error nothing is published
(`setResults(importResults)` only runs after the loop completes). -/
def runMulti (fs : Fs) (entries : List Entry) (opts : ImportOptions) : RunOutcome :=
  match fs.addAll entries opts with
  | .ok raws =>
      { state := { results := raws.map toResult, isProcessing := false, error := "" },
        invokedBackend := true }
  | .error e =>
      { state := { results := [], isProcessing := false, error := calcErrorMsg e },
        invokedBackend := true }

/-- The `calculateCIDs` callback (`App.tsx` lines 48-136) as a state
transition.  Empty selection returns before touching `results` or
`isProcessing`; otherwise `results` is cleared and `error` reset, the
not-ready check fires inside the `try` (so the `finally` still resets
`isProcessing`), and one of the two import branches runs. -/
def calculateCIDs (files : List InputFile) (heliaInstance : Option Fs)
    (st : AppState) : RunOutcome :=
  if files.length = 0 then
    { state := { st with error := selectFilesMsg }, invokedBackend := false }
  else
    match heliaInstance with
    | none =>
        { state := { results := [], isProcessing := false, error := heliaInitMsg },
          invokedBackend := false }
    | some fs =>
        let fileEntries := files.map toEntry
        let opts := kuboCompatibleOptions fileEntries
        if isSingleTopLevel fileEntries then
          runSingle fs (fileEntries.headD ⟨"", []⟩) opts
        else
          runMulti fs fileEntries opts

/-- Root-CID surfacing logic of the results panel (`App.tsx` lines 347-349):
`results.find(r => r.path === "" || r.type === "directory")?.cid ||
results[results.length - 1]?.cid`. -/
def surfacedRootCid (results : List Result) : Option Cid :=
  match results.find? (fun r => r.path == "" || r.type == "directory") with
  | some r => some r.cid
  | none => results.getLast?.map (fun r => r.cid)

/-- Splits a list into consecutive slices of `k` elements (the last slice
may be shorter); `k = 0` is treated as "one slice" to keep the function
total.  Used by the chunker and by the balanced DAG builder. -/
def splitEvery (k : Nat) (xs : List α) : List (List α) :=
  if k = 0 then [xs]
  else if h : xs.isEmpty then []
  else xs.take k :: splitEvery k (xs.drop k)
termination_by xs.length
decreasing_by
  simp only [List.length_drop]
  have hx : 0 < xs.length := by
    cases xs with
    | nil => simp at h
    | cons a l => simp
  omega

/-- Modelled from the spec: the Chunker (§4.1) called with the chunk size
of `kuboCompatibleOptions.chunkerOptions.maxChunkSize` — the chunker itself
lives in the `helia` dependency, outside this repository's sources.  Splits
a byte stream into maximal fixed-size chunks covering it exactly once;
empty input yields a single empty chunk. -/
def chunkBytes (k : Nat) (bs : List Nat) : List (List Nat) :=
  if bs = [] then [[]] else splitEvery k bs

/-- Maximum fan-out of the balanced DAG builder (spec §4.3: 174 links). -/
def maxFanout : Nat := 174

/-- Modelled from the spec: one grouping level of the Balanced DAG Builder
(§4.3) — children are grouped under parents of at most `maxFanout` links. -/
def buildLevel (ns : List Node) : List Node :=
  (splitEvery maxFanout ns).map Node.fileNode

/-- Modelled from the spec: the Balanced DAG Builder's recursion (§4.3),
with fuel bounding the number of levels.  Each level divides the node count
by `maxFanout` (rounding up), so `fuel = ns.length` always suffices; the
zero-fuel fallback is unreachable for that choice. -/
def buildDagAux (fuel : Nat) (ns : List Node) : Node :=
  match fuel, ns with
  | _, [] => Node.fileNode []
  | _, [n] => n
  | 0, ns => Node.fileNode ns
  | fuel + 1, ns => buildDagAux fuel (buildLevel ns)

/-- Modelled from the spec: the Balanced DAG Builder (§4.3).  A single leaf
is returned unchanged (bare-leaf file root, raw-leaves mode); otherwise
leaves are grouped level by level into file link nodes. -/
def buildDag (ns : List Node) : Node := buildDagAux ns.length ns

/-- Modelled from the spec: the file pipeline for one byte stream — chunk,
encode each chunk as a raw leaf (§4.2), assemble the balanced DAG (§4.3)
and take the root's CID.  This is the backend's `addBytes`. -/
def fileCid (k : Nat) (content : List Nat) : Cid :=
  buildDag ((chunkBytes k content).map Node.leaf)

/-- Splits a character list at `/` separators into path components. -/
def splitPathAux : List Char → List Char → List String
  | [], acc => [String.mk acc.reverse]
  | c :: rest, acc =>
      if c = '/' then String.mk acc.reverse :: splitPathAux rest []
      else splitPathAux rest (c :: acc)

/-- Path components of an entry path (spec §6: `/` is the separator);
same semantics as `String.splitOn "/"`, which Lean marks irreducible. -/
def splitPath (p : String) : List String := splitPathAux p.data []

/-- Lexicographic (byte-wise ascending) comparison of character lists. -/
def charListLt : List Char → List Char → Bool
  | [], [] => false
  | [], _ :: _ => true
  | _ :: _, [] => false
  | a :: as, b :: bs => if a < b then true else if b < a then false else charListLt as bs

/-- Evaluable name order used when sorting directory links (spec §4.4:
byte-wise ascending); same semantics as `String.lt`. -/
def strLt (a b : String) : Bool := charListLt a.data b.data

/-- Input-error message for a path-component name clash (spec §4.6
tie-break and §7 input error: "a name clash at one directory level between
a file and a directory", surfaced, not resolved automatically). -/
def clashMsg (name : String) : String := "input error: name clash at " ++ name

/-- Modelled from the spec: the Directory Assembler's tree construction
(§4.6) fused with the Node Serializer's name ordering (§4.4) — children are
kept sorted by name (byte-wise ascending) at every level, so a directory's
link list is its children in sorted name order.  Inserts one file node
under its path components.  A name clash at one directory level (inserting
a file where the name already exists, or descending through a name bound
to a non-directory node) is a caller input error (spec §4.6 tie-break, §7):
it is not resolved automatically but fails with a tagged error. -/
def insertNode (fileN : Node) : List String → List (String × Node) →
    Except String (List (String × Node))
  | [], cs => Except.ok cs
  | [name], [] => Except.ok [(name, fileN)]
  | name :: r :: rs, [] =>
      match insertNode fileN (r :: rs) [] with
      | Except.ok sub => Except.ok [(name, Node.dirNode sub)]
      | Except.error e => Except.error e
  | [name], (n, t) :: cs =>
      if strLt name n then Except.ok ((name, fileN) :: (n, t) :: cs)
      else if name = n then Except.error (clashMsg name)
      else
        match insertNode fileN [name] cs with
        | Except.ok cs2 => Except.ok ((n, t) :: cs2)
        | Except.error e => Except.error e
  | name :: r :: rs, (n, t) :: cs =>
      if strLt name n then
        match insertNode fileN (r :: rs) [] with
        | Except.ok sub => Except.ok ((name, Node.dirNode sub) :: (n, t) :: cs)
        | Except.error e => Except.error e
      else if name = n then
        match t with
        | Node.dirNode sub =>
            match insertNode fileN (r :: rs) sub with
            | Except.ok sub2 => Except.ok ((n, Node.dirNode sub2) :: cs)
            | Except.error e => Except.error e
        | _ => Except.error (clashMsg name)
      else
        match insertNode fileN (name :: r :: rs) cs with
        | Except.ok cs2 => Except.ok ((n, t) :: cs2)
        | Except.error e => Except.error e
termination_by comps cs => (comps.length, cs.length)

/-- Modelled from the spec: inserts every entry in order, resolving each
file to its DAG root; the first name clash aborts with its input error
(§7: surfaced immediately, no partial results). -/
def buildTreeAux (k : Nat) : List Entry → List (String × Node) →
    Except String (List (String × Node))
  | [], cs => Except.ok cs
  | e :: es, cs =>
      match insertNode (fileCid k e.content) (splitPath e.path) cs with
      | Except.ok cs2 => buildTreeAux k es cs2
      | Except.error err => Except.error err

/-- Modelled from the spec: the directory tree (root's children) assembled
from all entries (§4.6), or the input error of the first name clash. -/
def buildTree (k : Nat) (entries : List Entry) :
    Except String (List (String × Node)) :=
  buildTreeAux k entries []

/-- Joins a directory path and a child name with `/` (empty base = root). -/
def joinPath (base name : String) : String :=
  if base = "" then name else base ++ "/" ++ name

mutual

/-- Cumulative size of a node's subtree (spec §3: sum of all descendant
leaf byte lengths). -/
def Node.totalSize : Node → Nat
  | Node.leaf bs => bs.length
  | Node.fileNode cs => sizeListNodes cs
  | Node.dirNode cs => sizeNamedNodes cs

/-- Cumulative size of a list of anonymous children. -/
def sizeListNodes : List Node → Nat
  | [] => 0
  | n :: ns => Node.totalSize n + sizeListNodes ns

/-- Cumulative size of a list of named children. -/
def sizeNamedNodes : List (String × Node) → Nat
  | [] => 0
  | (_, n) :: ns => Node.totalSize n + sizeNamedNodes ns

end

/-- Modelled from the spec: the directory records emitted by the Directory
Assembler (§4.6), bottom-up from the deepest directories to the root —
each directory subtree's records precede the record of the directory
itself, left to right over the (name-sorted) children. -/
def dirRecords (base : String) : List (String × Node) → List RawEntry
  | [] => []
  | (n, Node.dirNode sub) :: rest =>
      (dirRecords (joinPath base n) sub ++
        [⟨joinPath base n, Node.dirNode sub, (Node.dirNode sub).totalSize,
          some "directory"⟩]) ++ dirRecords base rest
  | (_, _) :: rest => dirRecords base rest

/-- File record for one entry (own CID, cumulative = byte length). -/
def mkFileRecord (k : Nat) (e : Entry) : RawEntry :=
  ⟨e.path, fileCid k e.content, e.content.length, some "file"⟩

/-- Modelled from the spec: the synthetic wrapping-root record (§6, §9) —
path empty, kind directory, node the full assembled tree. -/
def rootRecord (t : List (String × Node)) : RawEntry :=
  ⟨"", Node.dirNode t, (Node.dirNode t).totalSize, some "directory"⟩

/-- Modelled from the spec: the backend's `addAll` output (§4.6, §6) — one
file record per entry in discovery order, then the directory records
bottom-up, then (when directory wrapping is on) the wrapping-root record;
a structurally invalid input (name clash) fails the whole run with its
input error (§7), producing no records. -/
def specAddAll (entries : List Entry) (opts : ImportOptions) :
    Except String (List RawEntry) :=
  match buildTree opts.chunkerOptions.maxChunkSize entries with
  | Except.error e => Except.error e
  | Except.ok t =>
      Except.ok (entries.map (mkFileRecord opts.chunkerOptions.maxChunkSize) ++
        dirRecords "" t ++
        (if opts.wrapWithDirectory then [rootRecord t] else []))

/-- Modelled from the spec: a backend instance whose `addBytes` and
`addAll` realise the content-addressing pipeline of §4 (pure in-memory
source, so no source-read errors occur; input errors from the directory
assembler do surface as errors). -/
def specFs : Fs :=
  { addBytes := fun content opts =>
      Except.ok (fileCid opts.chunkerOptions.maxChunkSize content)
    addAll := fun entries opts => specAddAll entries opts }

/-- Following the spec's words (§4.6): the parent directory components of
an entry path (all components but the file name). -/
def parentComps (p : String) : List String := (splitPath p).dropLast

/-- Longest common initial segment of two component lists. -/
def commonStem : List String → List String → List String
  | a :: as, b :: bs => if a = b then a :: commonStem as bs else []
  | _, _ => []

/-- Following the spec's words (§4.6): components of the deepest common
ancestor directory of all entries' paths. -/
def dcaComps (entries : List Entry) : List String :=
  match entries with
  | [] => []
  | e :: es => es.foldl (fun acc x => commonStem acc (parentComps x.path)) (parentComps e.path)

/-- Looks up the directory node at a component path inside the assembled
tree (the empty path denotes the wrapping root itself). -/
def lookupDirNode : List String → List (String × Node) → Option Node
  | [], cs => some (Node.dirNode cs)
  | c :: rest, cs =>
      match cs.find? (fun p => p.1 == c) with
      | some (_, Node.dirNode sub) => lookupDirNode rest sub
      | _ => none

/-- Following the spec's words (§4.6): "The deepest common ancestor
directory's CID is surfaced as the pipeline's root CID" — the CID of the
directory node sitting at the deepest common ancestor of all entry paths
in the assembled (wrapped) tree. -/
def deepestCommonAncestorCid (k : Nat) (entries : List Entry) : Option Cid :=
  match buildTree k entries with
  | Except.ok t => lookupDirNode (dcaComps entries) t
  | Except.error _ => none

/-- Number of links of a node (observation used to separate CID values). -/
def numLinks : Node → Nat
  | Node.leaf _ => 0
  | Node.fileNode cs => cs.length
  | Node.dirNode cs => cs.length

/-- Helper: the single-file branch always reports the backend as invoked. -/
theorem runSingle_invoked (fs : Fs) (entry : Entry) (opts : ImportOptions) :
    (runSingle fs entry opts).invokedBackend = true := by
  unfold runSingle
  cases fs.addBytes entry.content opts <;> rfl

/-- Helper: the multi-entry branch always reports the backend as invoked. -/
theorem runMulti_invoked (fs : Fs) (entries : List Entry) (opts : ImportOptions) :
    (runMulti fs entries opts).invokedBackend = true := by
  unfold runMulti
  cases fs.addAll entries opts <;> rfl

/-- Helper: the single-file branch leaves `isProcessing` false. -/
theorem runSingle_isProcessing (fs : Fs) (entry : Entry) (opts : ImportOptions) :
    (runSingle fs entry opts).state.isProcessing = false := by
  unfold runSingle
  cases fs.addBytes entry.content opts <;> rfl

/-- Helper: the multi-entry branch leaves `isProcessing` false. -/
theorem runMulti_isProcessing (fs : Fs) (entries : List Entry) (opts : ImportOptions) :
    (runMulti fs entries opts).state.isProcessing = false := by
  unfold runMulti
  cases fs.addAll entries opts <;> rfl

/-- C1: the `wrapWithDirectory` option built by `kuboCompatibleOptions` (and
passed to the importer by `calculateCIDs`) is `true` exactly when the entry
count exceeds one or some entry's path contains the separator `/`. -/
theorem c1_wrapWithDirectory_iff (fileEntries : List Entry) :
    (kuboCompatibleOptions fileEntries).wrapWithDirectory = true ↔
      1 < fileEntries.length ∨ ∃ e ∈ fileEntries, '/' ∈ e.path.data := by
  simp [kuboCompatibleOptions, List.any_eq_true, gt_iff_lt, hasSlash]

/-- C1 witness: two concrete instantiations, one wrapping (nested path) and
one not (single top-level file). -/
theorem c1_wrapWithDirectory_iff_witness :
    ((kuboCompatibleOptions [⟨"dir/a.txt", []⟩]).wrapWithDirectory = true ↔
      1 < ([(⟨"dir/a.txt", []⟩ : Entry)]).length ∨
        ∃ e ∈ [(⟨"dir/a.txt", []⟩ : Entry)], '/' ∈ e.path.data) :=
  c1_wrapWithDirectory_iff [⟨"dir/a.txt", []⟩]

/-- C6: with zero input entries `calculateCIDs` sets the input-error
message and returns at once: the published results are left untouched (no
record is emitted), `isProcessing` is not flipped, and the backend is never
invoked (processing does not begin). -/
theorem c6_empty_input (heliaInstance : Option Fs) (st : AppState) :
    calculateCIDs [] heliaInstance st =
      { state := { st with error := selectFilesMsg }, invokedBackend := false } :=
  rfl

/-- C10: every invocation that passes the non-empty-input check returns
with `isProcessing = false`, on every path (backend not ready, backend
success, backend error, either import branch) — the `finally` clause. -/
theorem c10_isProcessing_reset (files : List InputFile) (heliaInstance : Option Fs)
    (st : AppState) (h : files ≠ []) :
    (calculateCIDs files heliaInstance st).state.isProcessing = false := by
  cases files with
  | nil => exact absurd rfl h
  | cons f l =>
    rw [calculateCIDs.eq_def, if_neg (by simp)]
    cases heliaInstance with
    | none => rfl
    | some fs =>
      dsimp only
      split
      · exact runSingle_isProcessing fs _ _
      · exact runMulti_isProcessing fs _ _

/-- C10 witness: a concrete run (backend absent) ends not-processing. -/
theorem c10_isProcessing_reset_witness :
    (calculateCIDs [⟨"a.txt", "", [1]⟩] none ⟨[], true, ""⟩).state.isProcessing = false :=
  c10_isProcessing_reset [⟨"a.txt", "", [1]⟩] none ⟨[], true, ""⟩ (by simp)

/-- C8: for a non-empty selection the published results of a run depend
only on the input files and the backend instance, not on the component
state left by earlier runs — hence two runs over the same byte content and
path structure yield the identical results and so identical CID values. -/
theorem c8_deterministic (files : List InputFile) (heliaInstance : Option Fs)
    (st st' : AppState) (h : files ≠ []) :
    (calculateCIDs files heliaInstance st).state.results =
      (calculateCIDs files heliaInstance st').state.results := by
  cases files with
  | nil => exact absurd rfl h
  | cons f l => rfl

/-- C8 witness: a concrete double run from two different prior states. -/
theorem c8_deterministic_witness :
    (calculateCIDs [⟨"a.txt", "", [1]⟩] (some specFs) ⟨[], false, ""⟩).state.results =
      (calculateCIDs [⟨"a.txt", "", [1]⟩] (some specFs)
        ⟨[⟨"stale", Node.leaf [], 0, "file"⟩], true, "old"⟩).state.results :=
  c8_deterministic [⟨"a.txt", "", [1]⟩] (some specFs) _ _ (by simp)

/-- C5: with a non-empty selection but an uninitialized backend, the run
returns at once with the distinct not-ready message, publishes no result
records, does not invoke the backend (no blocking, no internal retry), and
the not-ready message differs from every other error message of the
component; once a backend instance is present, a later invocation does
reach the backend (the caller can retry). -/
theorem c5_backend_not_ready (files : List InputFile) (st : AppState) (h : files ≠ []) :
    calculateCIDs files none st =
      { state := { results := [], isProcessing := false, error := heliaInitMsg },
        invokedBackend := false } ∧
    heliaInitMsg ≠ selectFilesMsg ∧
    (∀ e, heliaInitMsg ≠ calcErrorMsg e) ∧
    ∀ fs, (calculateCIDs files (some fs) st).invokedBackend = true := by
  refine ⟨?_, by decide, ?_, ?_⟩
  · cases files with
    | nil => exact absurd rfl h
    | cons f l => rfl
  · intro e he
    have h0 : heliaInitMsg.get ⟨0⟩ = (calcErrorMsg e).get ⟨0⟩ := by rw [he]
    have h1 : heliaInitMsg.get ⟨0⟩ = 'H' := rfl
    have h2 : (calcErrorMsg e).get ⟨0⟩ = 'E' := rfl
    rw [h1, h2] at h0
    exact absurd h0 (by decide)
  · intro fs
    cases files with
    | nil => exact absurd rfl h
    | cons f l =>
      rw [calculateCIDs.eq_def, if_neg (by simp)]
      dsimp only
      split
      · exact runSingle_invoked fs _ _
      · exact runMulti_invoked fs _ _

/-- C5 witness: a concrete not-ready run. -/
theorem c5_backend_not_ready_witness :
    (calculateCIDs [⟨"a.txt", "", [1]⟩] none ⟨[], false, ""⟩ =
      { state := { results := [], isProcessing := false, error := heliaInitMsg },
        invokedBackend := false } ∧
    heliaInitMsg ≠ selectFilesMsg ∧
    (∀ e, heliaInitMsg ≠ calcErrorMsg e) ∧
    ∀ fs, (calculateCIDs [⟨"a.txt", "", [1]⟩] (some fs) ⟨[], false, ""⟩).invokedBackend = true) :=
  c5_backend_not_ready [⟨"a.txt", "", [1]⟩] ⟨[], false, ""⟩ (by simp)

/-- C4: if the invoked backend operation raises (is an `Except.error`), the
run ends with the published result set empty and a single non-empty tagged
error message — no record is published before the whole run succeeds. -/
theorem c4_all_or_nothing (files : List InputFile) (fs : Fs) (st : AppState) (e : String)
    (h : files ≠ [])
    (h1 : isSingleTopLevel (files.map toEntry) = true →
      fs.addBytes ((files.map toEntry).headD ⟨"", []⟩).content
        (kuboCompatibleOptions (files.map toEntry)) = Except.error e)
    (h2 : isSingleTopLevel (files.map toEntry) = false →
      fs.addAll (files.map toEntry) (kuboCompatibleOptions (files.map toEntry)) =
        Except.error e) :
    (calculateCIDs files (some fs) st).state =
      { results := [], isProcessing := false, error := calcErrorMsg e } ∧
    calcErrorMsg e ≠ "" := by
  constructor
  · cases files with
    | nil => exact absurd rfl h
    | cons f l =>
      rw [calculateCIDs.eq_def, if_neg (by simp)]
      dsimp only
      by_cases hs : isSingleTopLevel ((f :: l).map toEntry) = true
      · rw [if_pos hs]
        unfold runSingle
        rw [h1 hs]
      · rw [if_neg hs]
        unfold runMulti
        rw [h2 (by revert hs; cases isSingleTopLevel ((f :: l).map toEntry) <;> simp)]
  · intro hx
    have h3 := congrArg String.length hx
    simp [calcErrorMsg, String.length_append] at h3
    exact absurd h3.1 (by decide)

/-- C4 witness: a backend whose operations always throw leaves the result
set empty and a tagged error. -/
theorem c4_all_or_nothing_witness :
    ((calculateCIDs [⟨"a.txt", "", [1]⟩]
        (some ⟨fun _ _ => Except.error "boom", fun _ _ => Except.error "boom"⟩)
        ⟨[], false, ""⟩).state =
      { results := [], isProcessing := false, error := calcErrorMsg "boom" } ∧
    calcErrorMsg "boom" ≠ "") :=
  c4_all_or_nothing [⟨"a.txt", "", [1]⟩]
    ⟨fun _ _ => Except.error "boom", fun _ _ => Except.error "boom"⟩
    ⟨[], false, ""⟩ "boom" (by simp) (fun _ => rfl) (fun _ => rfl)

/-- C9: in the multi-entry branch each published record is the backend
entry mapped through `toResult`, whose kind is the entry's `type` field
when present and the default `"file"` otherwise — in particular an entry
with no `type` field is labeled `"file"` whatever node it denotes. -/
theorem c9_type_defaulting (files : List InputFile) (fs : Fs) (st : AppState)
    (raws : List RawEntry) (h : files ≠ [])
    (hm : isSingleTopLevel (files.map toEntry) = false)
    (hok : fs.addAll (files.map toEntry) (kuboCompatibleOptions (files.map toEntry)) =
      Except.ok raws) :
    (calculateCIDs files (some fs) st).state.results = raws.map toResult ∧
    ∀ r : RawEntry, r.type = none → (toResult r).type = "file" := by
  constructor
  · cases files with
    | nil => exact absurd rfl h
    | cons f l =>
      rw [calculateCIDs.eq_def, if_neg (by simp)]
      dsimp only
      rw [if_neg (by rw [hm]; simp)]
      unfold runMulti
      rw [hok]
  · intro r hr
    simp [toResult, hr]

/-- C9 witness: a backend yielding a directory node without a `type` field
has its record labeled `"file"`. -/
theorem c9_type_defaulting_witness :
    ((calculateCIDs [⟨"a.txt", "", [1]⟩, ⟨"b.txt", "", [2]⟩]
        (some ⟨fun _ _ => Except.error "x",
               fun _ _ => Except.ok [⟨"", Node.dirNode [], 0, none⟩]⟩)
        ⟨[], false, ""⟩).state.results =
      [⟨"", Node.dirNode [], 0, none⟩].map toResult ∧
    ∀ r : RawEntry, r.type = none → (toResult r).type = "file") :=
  c9_type_defaulting [⟨"a.txt", "", [1]⟩, ⟨"b.txt", "", [2]⟩]
    ⟨fun _ _ => Except.error "x", fun _ _ => Except.ok [⟨"", Node.dirNode [], 0, none⟩]⟩
    ⟨[], false, ""⟩ [⟨"", Node.dirNode [], 0, none⟩] (by simp) rfl rfl

/-- Helper: number of slices produced by `splitEvery` on a non-empty list
is the byte length divided by the slice size, rounded up. -/
theorem splitEvery_length {α : Type} (k : Nat) (hk : 0 < k) :
    ∀ (n : Nat) (xs : List α), xs.length = n → xs ≠ [] →
      (splitEvery k xs).length = (xs.length + k - 1) / k := by
  intro n
  induction n using Nat.strong_induction_on with
  | _ n ih =>
    intro xs hlen hne
    have hk0 : ¬k = 0 := by omega
    have hempty : xs.isEmpty = false := by
      cases xs with
      | nil => exact absurd rfl hne
      | cons a l => rfl
    have hL : 0 < xs.length := List.length_pos.mpr hne
    rw [splitEvery, if_neg hk0, dif_neg (by simp [hempty])]
    simp only [List.length_cons]
    by_cases hle : xs.length ≤ k
    · have hdrop : xs.drop k = [] := List.drop_eq_nil_of_le hle
      rw [hdrop, splitEvery, if_neg hk0]
      simp only [List.isEmpty_nil, dite_true, List.length_nil]
      have hq1 : 1 ≤ (xs.length + k - 1) / k := (Nat.le_div_iff_mul_le hk).mpr (by omega)
      have hq2 : (xs.length + k - 1) / k < 2 := (Nat.div_lt_iff_lt_mul hk).mpr (by omega)
      omega
    · push_neg at hle
      have hdne : xs.drop k ≠ [] := by
        intro hd
        have hlen2 := congrArg List.length hd
        simp only [List.length_drop, List.length_nil] at hlen2
        omega
      have ihres := ih (xs.length - k) (by omega) (xs.drop k)
        (by simp [List.length_drop]) hdne
      rw [ihres]
      simp only [List.length_drop]
      have e1 : xs.length - k + k - 1 = xs.length - 1 := by omega
      have e2 : xs.length + k - 1 = xs.length - 1 + k := by omega
      rw [e1, e2, Nat.add_div_right _ hk]

/-- C7: the chunker invoked with the chunk size fixed by
`kuboCompatibleOptions` (262144) produces `ceil(L / 262144)` leaf chunks
for a byte stream of length `L > 0`, and exactly one (empty) chunk for
`L = 0`. -/
theorem c7_chunk_count (es : List Entry) (bs : List Nat) :
    (chunkBytes (kuboCompatibleOptions es).chunkerOptions.maxChunkSize bs).length =
      if bs.length = 0 then 1 else (bs.length + 262144 - 1) / 262144 := by
  by_cases hb : bs = []
  · subst hb; rfl
  · rw [chunkBytes, if_neg hb, if_neg (by simp [List.length_eq_zero, hb])]
    exact splitEvery_length 262144 (by omega) bs.length bs rfl hb

/-- C7 witness: a three-byte stream yields one chunk, and (via a second
application left to the theorem's `if`) the empty stream yields one. -/
theorem c7_chunk_count_witness :
    (chunkBytes (kuboCompatibleOptions []).chunkerOptions.maxChunkSize [7, 7, 7]).length =
      if ([7, 7, 7] : List Nat).length = 0 then 1 else (([7, 7, 7] : List Nat).length + 262144 - 1) / 262144 :=
  c7_chunk_count [] [7, 7, 7]

/-- Helper: the surfaced root CID of a single-record result list is that
record's own CID (whether or not the record matches the find predicate). -/
theorem surfacedRootCid_singleton (r : Result) :
    surfacedRootCid [r] = some r.cid := by
  unfold surfacedRootCid
  cases h : (r.path == "" || r.type == "directory") <;>
    simp [List.find?, h, List.getLast?]

/-- C3: a run over exactly one entry whose path has no separator takes the
single-file branch: `wrapWithDirectory` is off, exactly one record is
published with kind `"file"`, the entry's path, and size the entry's byte
length, and the CID surfaced as the run's root is that record's own CID. -/
theorem c3_single_top_level (f : InputFile) (fs : Fs) (st : AppState) (cid : Cid)
    (hp : hasSlash (toEntry f).path = false)
    (hok : fs.addBytes (toEntry f).content (kuboCompatibleOptions [toEntry f]) =
      Except.ok cid) :
    (kuboCompatibleOptions ([f].map toEntry)).wrapWithDirectory = false ∧
    (calculateCIDs [f] (some fs) st).state.results =
      [⟨(toEntry f).path, cid, (toEntry f).content.length, "file"⟩] ∧
    surfacedRootCid (calculateCIDs [f] (some fs) st).state.results = some cid := by
  have hres : (calculateCIDs [f] (some fs) st).state.results =
      [⟨(toEntry f).path, cid, (toEntry f).content.length, "file"⟩] := by
    rw [calculateCIDs.eq_def, if_neg (by simp)]
    dsimp only
    rw [if_pos (by simp [isSingleTopLevel, List.headD, hp])]
    unfold runSingle
    simp only [List.map_cons, List.map_nil, List.headD_cons]
    rw [hok]
  refine ⟨by simp [kuboCompatibleOptions, hp], hres, ?_⟩
  rw [hres, surfacedRootCid_singleton]

/-- C3 witness: a concrete single top-level file processed by the
spec-modelled backend. -/
theorem c3_single_top_level_witness :
    ((kuboCompatibleOptions ([(⟨"a.txt", "", [1, 2, 3]⟩ : InputFile)].map toEntry)).wrapWithDirectory = false ∧
    (calculateCIDs [⟨"a.txt", "", [1, 2, 3]⟩] (some specFs) ⟨[], false, ""⟩).state.results =
      [⟨(toEntry ⟨"a.txt", "", [1, 2, 3]⟩).path,
        fileCid (kuboCompatibleOptions [toEntry ⟨"a.txt", "", [1, 2, 3]⟩]).chunkerOptions.maxChunkSize
          (toEntry ⟨"a.txt", "", [1, 2, 3]⟩).content,
        (toEntry ⟨"a.txt", "", [1, 2, 3]⟩).content.length, "file"⟩] ∧
    surfacedRootCid (calculateCIDs [⟨"a.txt", "", [1, 2, 3]⟩] (some specFs)
        ⟨[], false, ""⟩).state.results =
      some (fileCid (kuboCompatibleOptions [toEntry ⟨"a.txt", "", [1, 2, 3]⟩]).chunkerOptions.maxChunkSize
        (toEntry ⟨"a.txt", "", [1, 2, 3]⟩).content)) :=
  c3_single_top_level ⟨"a.txt", "", [1, 2, 3]⟩ specFs ⟨[], false, ""⟩ _ (by decide) rfl

/-- Helper: every record emitted by the directory phase carries kind
`directory`. -/
theorem dirRecords_type (base : String) (cs : List (String × Node)) :
    ∀ r ∈ dirRecords base cs, r.type = some "directory" := by
  induction base, cs using dirRecords.induct with
  | case1 base =>
      intro r hr
      simp [dirRecords] at hr
  | case2 base n sub rest ih1 ih2 =>
      intro r hr
      rw [dirRecords] at hr
      simp only [List.append_assoc, List.cons_append, List.nil_append,
        List.mem_append, List.mem_cons] at hr
      rcases hr with h1 | h2 | h3
      · exact ih1 r h1
      · subst h2; rfl
      · exact ih2 r h3
  | case3 base n t rest hnd ih =>
      intro r hr
      cases t with
      | dirNode sub => exact absurd rfl (fun h => hnd sub h)
      | leaf bs =>
          rw [dirRecords] at hr
          exacts [ih r hr, fun sub h => Node.noConfusion h]
      | fileNode ns =>
          rw [dirRecords] at hr
          exacts [ih r hr, fun sub h => Node.noConfusion h]

/-- Helper: the root-CID `find` predicate matches no file record whose path
is non-empty. -/
theorem find_fileRecords_none (es : List Entry) (k : Nat)
    (hp : ∀ e ∈ es, e.path ≠ "") :
    ((es.map (mkFileRecord k)).map toResult).find?
      (fun r => r.path == "" || r.type == "directory") = none := by
  rw [List.find?_eq_none]
  intro x hx
  simp only [List.map_map, List.mem_map, Function.comp] at hx
  obtain ⟨e, he, rfl⟩ := hx
  simp [toResult, mkFileRecord]
  exact hp e he

/-- Helper: when `wrapWithDirectory` is on, the single-file branch
condition is off (wrapping forces the `addAll` branch). -/
theorem wrap_imp_not_single (es : List Entry)
    (hw : (kuboCompatibleOptions es).wrapWithDirectory = true) :
    isSingleTopLevel es = false := by
  cases es with
  | nil => simp [kuboCompatibleOptions] at hw
  | cons e l =>
    cases l with
    | nil =>
        simp only [kuboCompatibleOptions, List.length_cons, List.length_nil,
          List.any_cons, List.any_nil, Bool.or_false] at hw
        simp only [isSingleTopLevel, List.length_cons, List.length_nil, List.headD_cons]
        simp at hw ⊢
        simp [hw]
    | cons e2 l2 => simp [isSingleTopLevel]

/-- C2 (amended): for a wrapped run over the spec-modelled backend whose
input is structurally valid (the directory assembler succeeds with tree
`t`), the published output is the file records in discovery order, then
the directory records bottom-up, ending with exactly one root record of
kind `directory` and empty path; and the CID surfaced as the run's root by
the results panel is the CID of the *first* record of the directory part
(the deepest directory of the first-listed subtree, or the wrapping root
when no intermediate directory exists) — not in general the deepest common
ancestor directory. -/
theorem c2_output_shape_and_root (files : List InputFile) (st : AppState)
    (t : List (String × Node))
    (hw : (kuboCompatibleOptions (files.map toEntry)).wrapWithDirectory = true)
    (hp : ∀ e ∈ files.map toEntry, e.path ≠ "")
    (ht : buildTree 262144 (files.map toEntry) = Except.ok t) :
    ∃ d : RawEntry,
      (calculateCIDs files (some specFs) st).state.results =
        ((files.map toEntry).map (mkFileRecord 262144) ++
          (dirRecords "" t ++ [rootRecord t])).map toResult ∧
      (calculateCIDs files (some specFs) st).state.results.getLast? =
        some (toResult (rootRecord t)) ∧
      (rootRecord t).path = "" ∧
      (toResult (rootRecord t)).type = "directory" ∧
      (dirRecords "" t ++ [rootRecord t]).head? = some d ∧
      surfacedRootCid (calculateCIDs files (some specFs) st).state.results =
        some d.cid := by
  have hsingle : isSingleTopLevel (files.map toEntry) = false :=
    wrap_imp_not_single _ hw
  have hres : (calculateCIDs files (some specFs) st).state.results =
      ((files.map toEntry).map (mkFileRecord 262144) ++
        (dirRecords "" t ++ [rootRecord t])).map toResult := by
    cases files with
    | nil => simp [kuboCompatibleOptions] at hw
    | cons f l =>
      rw [calculateCIDs.eq_def, if_neg (by simp)]
      dsimp only
      rw [if_neg (by rw [hsingle]; simp)]
      unfold runMulti
      have haddAll : specFs.addAll ((f :: l).map toEntry)
          (kuboCompatibleOptions ((f :: l).map toEntry)) =
          Except.ok (((f :: l).map toEntry).map (mkFileRecord 262144) ++
            dirRecords "" t ++ [rootRecord t]) := by
        show specAddAll ((f :: l).map toEntry)
            (kuboCompatibleOptions ((f :: l).map toEntry)) = _
        rw [specAddAll]
        rw [show (kuboCompatibleOptions ((f :: l).map toEntry)).chunkerOptions.maxChunkSize
            = 262144 from rfl]
        rw [ht]
        dsimp only
        rw [if_pos hw]
      rw [haddAll]
      dsimp only
      rw [List.append_assoc]
  have hlast : (calculateCIDs files (some specFs) st).state.results.getLast? =
      some (toResult (rootRecord t)) := by
    rw [hres]
    simp [List.map_append, List.getLast?_append]
  rcases hD : dirRecords "" t with _ | ⟨d0, Dr⟩
  · rw [hD] at hres
    refine ⟨rootRecord t, hres, hlast, rfl, rfl, rfl, ?_⟩
    rw [hres]
    simp only [List.nil_append, List.map_append]
    unfold surfacedRootCid
    rw [List.find?_append, find_fileRecords_none _ _ hp]
    simp [List.find?, toResult, rootRecord]
  · have htype : d0.type = some "directory" := by
      refine dirRecords_type "" t d0 ?_
      rw [hD]
      exact List.mem_cons_self d0 Dr
    rw [hD] at hres
    refine ⟨d0, hres, hlast, rfl, rfl, rfl, ?_⟩
    rw [hres]
    simp only [List.map_append, List.map_cons, List.cons_append]
    unfold surfacedRootCid
    rw [List.find?_append, find_fileRecords_none _ _ hp]
    simp [List.find?, toResult, htype]

/-- Helper: a non-empty byte stream of at most one chunk resolves to a
bare raw leaf (spec §4.3 case (a)). -/
theorem fileCid_single_chunk (bs : List Nat) (h1 : bs ≠ [])
    (h2 : bs.length ≤ 262144) : fileCid 262144 bs = Node.leaf bs := by
  rw [fileCid, chunkBytes, if_neg h1]
  rw [splitEvery, if_neg (by omega), dif_neg (by simp [h1])]
  rw [List.take_of_length_le h2, List.drop_eq_nil_of_le h2]
  rw [splitEvery, if_neg (by omega)]
  simp only [List.isEmpty_nil, dite_true]
  rfl

/-- Helper: the assembled tree of two files sharing one directory. -/
theorem buildTree_shared_dir :
    buildTree 262144 [⟨"dir/a.txt", [0]⟩, ⟨"dir/b.txt", [1]⟩] =
      Except.ok [("dir", Node.dirNode
        [("a.txt", Node.leaf [0]), ("b.txt", Node.leaf [1])])] := by
  rw [buildTree]
  simp [buildTreeAux, insertNode, splitPath, splitPathAux, strLt, charListLt,
    fileCid_single_chunk]

/-- C2 witness: two files under a shared directory; the surfaced root is
the first directory record (here the shared directory itself). -/
theorem c2_output_shape_and_root_witness :
    ∃ d : RawEntry,
      (calculateCIDs [⟨"a.txt", "dir/a.txt", [0]⟩, ⟨"b.txt", "dir/b.txt", [1]⟩]
          (some specFs) ⟨[], false, ""⟩).state.results =
        (([⟨"a.txt", "dir/a.txt", [0]⟩, ⟨"b.txt", "dir/b.txt", [1]⟩].map toEntry).map
            (mkFileRecord 262144) ++
          (dirRecords "" [("dir", Node.dirNode
              [("a.txt", Node.leaf [0]), ("b.txt", Node.leaf [1])])] ++
            [rootRecord [("dir", Node.dirNode
              [("a.txt", Node.leaf [0]), ("b.txt", Node.leaf [1])])]])).map toResult ∧
      (calculateCIDs [⟨"a.txt", "dir/a.txt", [0]⟩, ⟨"b.txt", "dir/b.txt", [1]⟩]
          (some specFs) ⟨[], false, ""⟩).state.results.getLast? =
        some (toResult (rootRecord [("dir", Node.dirNode
          [("a.txt", Node.leaf [0]), ("b.txt", Node.leaf [1])])])) ∧
      (rootRecord [("dir", Node.dirNode
        [("a.txt", Node.leaf [0]), ("b.txt", Node.leaf [1])])]).path = "" ∧
      (toResult (rootRecord [("dir", Node.dirNode
        [("a.txt", Node.leaf [0]), ("b.txt", Node.leaf [1])])])).type = "directory" ∧
      (dirRecords "" [("dir", Node.dirNode
          [("a.txt", Node.leaf [0]), ("b.txt", Node.leaf [1])])] ++
        [rootRecord [("dir", Node.dirNode
          [("a.txt", Node.leaf [0]), ("b.txt", Node.leaf [1])])]]).head? = some d ∧
      surfacedRootCid (calculateCIDs
          [⟨"a.txt", "dir/a.txt", [0]⟩, ⟨"b.txt", "dir/b.txt", [1]⟩]
          (some specFs) ⟨[], false, ""⟩).state.results = some d.cid :=
  c2_output_shape_and_root
    [⟨"a.txt", "dir/a.txt", [0]⟩, ⟨"b.txt", "dir/b.txt", [1]⟩]
    ⟨[], false, ""⟩
    [("dir", Node.dirNode [("a.txt", Node.leaf [0]), ("b.txt", Node.leaf [1])])]
    rfl (by decide) buildTree_shared_dir

/-- Helper: the assembler rejects the clashing input `x` / `x/y` (a file
and a directory sharing the name `x` at the top level) with the input
error, so the spec-modelled backend publishes no records for it. -/
theorem specAddAll_clash_is_input_error :
    specAddAll [⟨"x", [0]⟩, ⟨"x/y", [1]⟩]
      (kuboCompatibleOptions [⟨"x", [0]⟩, ⟨"x/y", [1]⟩]) =
      Except.error (clashMsg "x") := by
  have hb : buildTree 262144 [⟨"x", [0]⟩, ⟨"x/y", [1]⟩] =
      Except.error (clashMsg "x") := by
    rw [buildTree]
    simp [buildTreeAux, insertNode, splitPath, splitPathAux, strLt, charListLt,
      fileCid_single_chunk]
  rw [specAddAll]
  rw [show (kuboCompatibleOptions [(⟨"x", [0]⟩ : Entry),
      ⟨"x/y", [1]⟩]).chunkerOptions.maxChunkSize = 262144 from rfl]
  rw [hb]

/-- Helper: the assembled tree of the two-subtree counterexample input. -/
theorem buildTree_two_subtrees :
    buildTree 262144 [⟨"dir1/a.txt", [0]⟩, ⟨"dir2/b.txt", [1]⟩] =
      Except.ok [("dir1", Node.dirNode [("a.txt", Node.leaf [0])]),
                 ("dir2", Node.dirNode [("b.txt", Node.leaf [1])])] := by
  rw [buildTree]
  simp [buildTreeAux, insertNode, splitPath, splitPathAux, strLt, charListLt,
    fileCid_single_chunk]

/-- Helper: the directory records of the two-subtree counterexample. -/
theorem dirRecords_two_subtrees :
    dirRecords "" [("dir1", Node.dirNode [("a.txt", Node.leaf [0])]),
                   ("dir2", Node.dirNode [("b.txt", Node.leaf [1])])] =
      [⟨"dir1", Node.dirNode [("a.txt", Node.leaf [0])],
        (Node.dirNode [("a.txt", Node.leaf [0])]).totalSize, some "directory"⟩,
       ⟨"dir2", Node.dirNode [("b.txt", Node.leaf [1])],
        (Node.dirNode [("b.txt", Node.leaf [1])]).totalSize, some "directory"⟩] := by
  simp [dirRecords, joinPath]

/-- C2 counterexample: with the two entries `dir1/a.txt` and `dir2/b.txt`
(structurally valid, no clash), the deepest common ancestor directory is
the wrapping root (holding the two subtrees), yet the results panel
surfaces the CID of the first directory record, `dir1` — so the surfaced
CID is not the deepest common ancestor directory's CID. -/
theorem c2_surfaced_is_not_deepest_common_ancestor :
    surfacedRootCid ((calculateCIDs
        [⟨"a.txt", "dir1/a.txt", [0]⟩, ⟨"b.txt", "dir2/b.txt", [1]⟩]
        (some specFs) ⟨[], false, ""⟩).state.results) ≠
      deepestCommonAncestorCid 262144
        ([⟨"a.txt", "dir1/a.txt", [0]⟩, ⟨"b.txt", "dir2/b.txt", [1]⟩].map toEntry) := by
  have haddAll : specFs.addAll [⟨"dir1/a.txt", [0]⟩, ⟨"dir2/b.txt", [1]⟩]
      (kuboCompatibleOptions [⟨"dir1/a.txt", [0]⟩, ⟨"dir2/b.txt", [1]⟩]) =
      Except.ok (([(⟨"dir1/a.txt", [0]⟩ : Entry), ⟨"dir2/b.txt", [1]⟩].map
          (mkFileRecord 262144)) ++
        dirRecords "" [("dir1", Node.dirNode [("a.txt", Node.leaf [0])]),
                       ("dir2", Node.dirNode [("b.txt", Node.leaf [1])])] ++
        [rootRecord [("dir1", Node.dirNode [("a.txt", Node.leaf [0])]),
                     ("dir2", Node.dirNode [("b.txt", Node.leaf [1])])]]) := by
    show specAddAll [⟨"dir1/a.txt", [0]⟩, ⟨"dir2/b.txt", [1]⟩]
        (kuboCompatibleOptions [⟨"dir1/a.txt", [0]⟩, ⟨"dir2/b.txt", [1]⟩]) = _
    rw [specAddAll]
    rw [show (kuboCompatibleOptions [(⟨"dir1/a.txt", [0]⟩ : Entry),
        ⟨"dir2/b.txt", [1]⟩]).chunkerOptions.maxChunkSize = 262144 from rfl]
    rw [buildTree_two_subtrees]
    dsimp only
    rw [if_pos (show (kuboCompatibleOptions [(⟨"dir1/a.txt", [0]⟩ : Entry),
        ⟨"dir2/b.txt", [1]⟩]).wrapWithDirectory = true from rfl)]
  have hsurf : surfacedRootCid ((calculateCIDs
      [⟨"a.txt", "dir1/a.txt", [0]⟩, ⟨"b.txt", "dir2/b.txt", [1]⟩]
      (some specFs) ⟨[], false, ""⟩).state.results) =
      some (Node.dirNode [("a.txt", Node.leaf [0])]) := by
    rw [calculateCIDs.eq_def, if_neg (by simp)]
    dsimp only
    rw [if_neg (by decide)]
    unfold runMulti
    rw [show List.map toEntry [(⟨"a.txt", "dir1/a.txt", [0]⟩ : InputFile),
        ⟨"b.txt", "dir2/b.txt", [1]⟩] =
      [(⟨"dir1/a.txt", [0]⟩ : Entry), ⟨"dir2/b.txt", [1]⟩] from rfl]
    rw [haddAll]
    dsimp only
    rw [dirRecords_two_subtrees]
    simp [surfacedRootCid, List.find?, toResult, mkFileRecord, rootRecord]
  have hdca : deepestCommonAncestorCid 262144
      ([⟨"a.txt", "dir1/a.txt", [0]⟩, ⟨"b.txt", "dir2/b.txt", [1]⟩].map toEntry) =
      some (Node.dirNode [("dir1", Node.dirNode [("a.txt", Node.leaf [0])]),
                          ("dir2", Node.dirNode [("b.txt", Node.leaf [1])])]) := by
    rw [show ([(⟨"a.txt", "dir1/a.txt", [0]⟩ : InputFile),
        ⟨"b.txt", "dir2/b.txt", [1]⟩].map toEntry) =
      [(⟨"dir1/a.txt", [0]⟩ : Entry), ⟨"dir2/b.txt", [1]⟩] from rfl]
    rw [deepestCommonAncestorCid, buildTree_two_subtrees]
    rfl
  rw [hsurf, hdca]
  intro h
  simp at h

end CidCalc
